import Mathlib

/-
Verification of the bulk discount-generation pipeline of ambient-discount-gen.

The development shallowly embeds the three core source files:
  * the per-row generator `generateDiscountCodes` (src/unnamed/part_001),
  * the CSV exporters (src/app/utils/csv-export.server.ts),
translating the JavaScript semantics explicitly: object lookup yields
`Option String`, JS numbers are `Option JsNum` (with `none` playing NaN where
a parse can fail), uncaught runtime exceptions abort the run through
`Except.error`, and the remote GraphQL call plus `Date.now()` are oracles
supplied as parameters.
-/

deriving instance DecidableEq for Except

namespace DiscountGen

/-- A CSV row as produced by the parser: a property map from column name to
string cell, keys in insertion order (the parser produces distinct keys). -/
def Row := List (String × String)
instance : DecidableEq Row := by unfold Row; infer_instance

/-- JS property read `row[col]`: `none` models `undefined`. -/
def jsLookup (row : Row) (k : String) : Option String := List.lookup k row

/-- JS truthiness test on a possibly-undefined string: `undefined` and `""`
are falsy. -/
def strFalsy : Option String → Bool
  | none => true
  | some s => s = ""

/-- JS `v || d` on a possibly-undefined string. -/
def jsOrElse (v : Option String) (d : String) : String :=
  match v with
  | none => d
  | some s => if s = "" then d else s

/-- A JS number that is not NaN: a finite value (as an exact rational) or a
signed infinity.  NaN is represented one level up by `Option JsNum := none`. -/
inductive JsNum where
  | finite (q : Rat)
  | inf (neg : Bool)
deriving Repr, DecidableEq

/-- Value of a digit run, most significant first. -/
def digitsToNat (ds : List Char) : Nat :=
  ds.foldl (fun acc c => acc * 10 + (c.toNat - '0'.toNat)) 0

/-- The StrWhiteSpace characters `parseFloat` skips (the common ones: space,
tab, LF, VT, FF, CR, NBSP). -/
def jsStrWs (c : Char) : Bool :=
  c = ' ' || c.toNat = 9 || c.toNat = 10 || c.toNat = 11 || c.toNat = 12 ||
    c.toNat = 13 || c.toNat = 160

/-- JS `s.trim()` (over the modelled whitespace set). -/
def jsTrim (s : String) : String :=
  String.mk (((s.data.dropWhile jsStrWs).reverse.dropWhile jsStrWs).reverse)

/-- Optional leading sign; returns (isNegative, rest). -/
def parseSign : List Char → Bool × List Char
  | '-' :: cs => (true, cs)
  | '+' :: cs => (false, cs)
  | cs => (false, cs)

/-- Exponent part after the `e`/`E`: JS ignores an exponent marker not
followed by at least one digit (`parseFloat("1e+") == 1`). -/
def parseExpPart (cs : List Char) : Int :=
  let p := parseSign cs
  let ds := p.2.takeWhile Char.isDigit
  if ds.isEmpty then 0
  else if p.1 then -(digitsToNat ds : Int) else (digitsToNat ds : Int)

/-- `parseFloat` on a char list: skip whitespace, optional sign, `Infinity`
or a decimal literal prefix; `none` is NaN.  (Engine corner cases outside any
input considered here, e.g. Unicode exotic spaces, are not modelled.) -/
def jsParseFloatCore (cs0 : List Char) : Option JsNum :=
  let cs1 := cs0.dropWhile jsStrWs
  let sp := parseSign cs1
  let neg := sp.1
  let cs2 := sp.2
  if "Infinity".data.isPrefixOf cs2 then some (.inf neg)
  else
    let intDigits := cs2.takeWhile Char.isDigit
    let rest1 := cs2.dropWhile Char.isDigit
    let fr : List Char × List Char :=
      match rest1 with
      | '.' :: cs => (cs.takeWhile Char.isDigit, cs.dropWhile Char.isDigit)
      | _ => ([], rest1)
    let fracDigits := fr.1
    let rest2 := fr.2
    if intDigits.isEmpty && fracDigits.isEmpty then none
    else
      let expVal : Int :=
        match rest2 with
        | 'e' :: cs => parseExpPart cs
        | 'E' :: cs => parseExpPart cs
        | _ => 0
      let m : Nat := digitsToNat (intDigits ++ fracDigits)
      let e : Int := expVal - fracDigits.length
      let mag : Rat :=
        if 0 ≤ e then mkRat (m * 10 ^ e.toNat) 1 else mkRat m (10 ^ (-e).toNat)
      some (.finite (if neg then -mag else mag))

/-- JS `parseFloat(s)`; `none` is NaN. -/
def jsParseFloat (s : String) : Option JsNum := jsParseFloatCore s.data

/-- Replace the first occurrence of a non-empty pattern. -/
def replaceFirstAux (pat rep : List Char) : List Char → List Char
  | [] => []
  | c :: cs =>
    if pat.isPrefixOf (c :: cs) then rep ++ (c :: cs).drop pat.length
    else c :: replaceFirstAux pat rep cs

/-- JS `s.replace(pat, rep)` with a string pattern: only the first occurrence
is replaced; the empty pattern matches at the start. -/
def jsReplaceFirst (s pat rep : String) : String :=
  if pat = "" then rep ++ s else ⟨replaceFirstAux pat.data rep.data s.data⟩

/-- Replace every occurrence of a non-empty pattern, scanning left to right
and not rescanning replacements (the semantics of a global regex replace on
a fixed pattern).  The fuel argument, instantiated with the input length,
only makes the recursion structural: every step consumes at least one input
character, so the fuel never runs out. -/
def replaceAllFuel (pat rep : List Char) : Nat → List Char → List Char
  | 0, s => s
  | _ + 1, [] => []
  | fuel + 1, c :: cs =>
    if pat.isPrefixOf (c :: cs) then
      rep ++ replaceAllFuel pat rep fuel ((c :: cs).drop pat.length)
    else c :: replaceAllFuel pat rep fuel cs

/-- JS `s.replace(regex, rep)` for a global literal pattern. -/
def jsReplaceAll (s pat rep : String) : String :=
  if pat = "" then s else ⟨replaceAllFuel pat.data rep.data s.data.length s.data⟩

/-- JS `s.toUpperCase()`: character-wise ASCII uppercasing (the Unicode
special cases of the builtin fall outside `[A-Z0-9]` either way and are not
modelled). -/
def jsToUpper (s : String) : String := String.mk (s.data.map Char.toUpper)

/-- The exact literal the source strips from the price cell before
`parseFloat`: the two characters U+00C2 U+00A3 (a mis-encoded pound sign, as
present byte-for-byte in src/unnamed/part_001 line 38). -/
def poundLit : String := "Â£"

/-- Least power of ten clearing the denominator, if one of at most 10^30
does. -/
def decExp (q : Rat) : Option Nat :=
  (List.range 31).find? fun k => (q * mkRat (10 ^ k) 1).den == 1

/-- Decimal rendering of a finite JS number (`Number.prototype.toString` for
the terminating decimals that arise here; scientific-notation corner cases
for extreme magnitudes are not modelled). -/
def ratToDecString (q : Rat) : String :=
  match decExp q with
  | some 0 => toString q.num
  | some k =>
      let n := (q * mkRat (10 ^ k) 1).num
      let s0 := toString n.natAbs
      let s := if s0.length ≤ k then
                 String.mk (List.replicate (k + 1 - s0.length) '0') ++ s0
               else s0
      (if q.num < 0 then "-" else "") ++
        String.mk (s.data.take (s.length - k)) ++ "." ++
        String.mk (s.data.drop (s.length - k))
  | none => toString q.num ++ "/" ++ toString q.den

/-- JS string conversion of a non-NaN number. -/
def jsNumToString : JsNum → String
  | .finite q => ratToDecString q
  | .inf false => "Infinity"
  | .inf true => "-Infinity"

/-- JS falsiness of a non-NaN number: only finite 0 (NaN, also falsy, is the
`none` case of `Option JsNum`). -/
def jsNumFalsy : JsNum → Bool
  | .finite q => q == 0
  | .inf _ => false

/-! ## The generator (src/unnamed/part_001) -/

/-- One entry of the remote mutation's `userErrors` array: `field` may be
absent (`none` models a missing or null field name). -/
structure UserError where
  field : Option String
  message : String
deriving Repr, DecidableEq

/-- One entry of a top-level GraphQL `errors` array. -/
structure GqlError where
  message : String
deriving Repr, DecidableEq

/-- The `discountCodeBasicCreate` payload; only `userErrors` is read by the
generator (`none` models an absent/null array, which is falsy). -/
structure DiscountData where
  userErrors : Option (List UserError)
deriving Repr, DecidableEq

/-- The `data` object of a GraphQL response body. -/
structure GqlData where
  discountCodeBasicCreate : Option DiscountData
deriving Repr, DecidableEq

/-- A parsed GraphQL response body.  `errors = none` models an absent (falsy)
`errors` property; `some es` a present array, which is truthy even when
empty. -/
structure ResponseData where
  errors : Option (List GqlError)
  data : Option GqlData
deriving Repr, DecidableEq

/-- Behaviour of one `await graphql(...)` call, covering the shapes the
source dispatches on: the call throwing; a Response-like value exposing
`.json()`; an already-parsed object (taken only when its `.data` is truthy);
raw text whose `JSON.parse` may fail (`parsed = none`). -/
inductive RemoteOutcome where
  | throw (msg : String)
  | jsonResponse (d : ResponseData)
  | parsedResponse (d : ResponseData)
  | textResponse (raw : String) (parsed : Option ResponseData)
deriving Repr, DecidableEq

/-- Behaviour of one evaluation of the user transform snippet on a name:
it returns a string, returns a non-string value, or throws (including a
`new Function` compilation error, whose message is then name-independent). -/
inductive TransformResult where
  | ok (s : String)
  | nonString
  | throws (msg : String)
deriving Repr, DecidableEq

/-- One result record pushed by the generator.  `row` is the 1-based source
position; `discountCode` and `amount` are present only on success. -/
structure DiscountResult where
  row : Int
  customer : String
  status : String
  discountCode : Option String
  amount : Option JsNum
  message : String
deriving Repr, DecidableEq

/-- What one loop iteration did: the pushed result, whether the remote call
was reached, and the `setTimeout` delay slept afterwards (if any). -/
structure RowTrace where
  result : DiscountResult
  remoteAttempted : Bool
  delayedMs : Option Nat
deriving Repr, DecidableEq

/-- A loop iteration either pushes one result or raises an uncaught JS
exception, which aborts the whole batch. -/
inductive RowStep where
  | ok (t : RowTrace)
  | crash (msg : String)
deriving Repr, DecidableEq

/-- The generator's inputs: the column mapping, the transform snippet text,
and the effectful parts as oracles — `transformSem` gives the snippet's
behaviour on a name, `timeO k` is `Date.now()` at the k-th code synthesis,
`remoteO k` the outcome of the k-th remote call (synthesis and call happen
together, so one index serves both). -/
structure GenConfig where
  nameColumn : String
  priceColumn : String
  transformFunction : String
  transformSem : String → TransformResult
  timeO : Nat → Nat
  remoteO : Nat → RemoteOutcome

/-- Character kept by the code cleaner: `[A-Z0-9]`. -/
def codeChar (c : Char) : Bool := c.isUpper || c.isDigit

/-- `customerName.toUpperCase().replace(/[^A-Z0-9]/g, "_")`. -/
def cleanName (name : String) : String :=
  String.mk ((jsToUpper name).data.map fun c => if codeChar c then c else '_')

/-- `` `KICKSTARTER_${cleanName}_${timestamp}`.substring(0, 50) ``. -/
def mkDiscountCode (name : String) (timestamp : Nat) : String :=
  String.mk (("KICKSTARTER_" ++ cleanName name ++ "_" ++ toString timestamp).data.take 50)

/-- The response-shape dispatch of lines 108-133: produce the parsed body, or
the error message recorded when no shape applies (a thrown `.json`/`.text`
lands in the surrounding catch as an `API Error`; unparseable text yields the
`Invalid response format` message with the body truncated to 100 chars). -/
def normalizeResp : RemoteOutcome → Except String ResponseData
  | .throw m => .error ("API Error: " ++ m)
  | .jsonResponse d => .ok d
  | .parsedResponse d =>
      if d.data.isSome then .ok d
      else .error "API Error: response.text is not a function"
  | .textResponse raw parsed =>
      match parsed with
      | some d => .ok d
      | none => .error ("Invalid response format: " ++ String.mk (raw.data.take 100))

/-- `${e.field || "unknown"}: ${e.message}`. -/
def userErrStr (e : UserError) : String :=
  (match e.field with
   | none => "unknown"
   | some f => if f = "" then "unknown" else f) ++ ": " ++ e.message

/-- Interpretation of a parsed body (lines 141-186): top-level `errors`,
missing payload, non-empty `userErrors`, or success.  Only the last two
branches fall through to the 600 ms sleep. -/
def interpretData (i : Nat) (name code : String) (v : JsNum) (d : ResponseData) : RowTrace :=
  match d.errors with
  | some es =>
      ⟨⟨(i : Int) + 1, name, "error", none, none,
        "GraphQL errors: " ++ String.intercalate ", " (es.map (·.message))⟩, true, none⟩
  | none =>
    match d.data.bind (·.discountCodeBasicCreate) with
    | none =>
        ⟨⟨(i : Int) + 1, name, "error", none, none,
          "No discountCodeBasicCreate data in response"⟩, true, none⟩
    | some dd =>
      match dd.userErrors with
      | some (e :: es) =>
          ⟨⟨(i : Int) + 1, name, "error", none, none,
            String.intercalate ", " ((e :: es).map userErrStr)⟩, true, some 600⟩
      | _ =>
          ⟨⟨(i : Int) + 1, name, "success", some code, some v,
            "Discount code created successfully"⟩, true, some 600⟩

/-- Code synthesis plus the whole try/catch around the remote call.  This
phase never crashes: every exception inside the try lands in the catch. -/
def remotePhase (cfg : GenConfig) (i k : Nat) (name : String) (v : JsNum) : RowTrace :=
  let code := mkDiscountCode name (cfg.timeO k)
  match normalizeResp (cfg.remoteO k) with
  | .error m => ⟨⟨(i : Int) + 1, name, "error", none, none, m⟩, true, none⟩
  | .ok d => interpretData i name code v d

/-- One iteration of the row loop (lines 35-198).  Crash points mirror the
source: reading `.replace` off an absent price cell, and calling
`.toUpperCase()` on a non-string transform result — both outside any try. -/
def processRow (cfg : GenConfig) (i k : Nat) (row : Row) : RowStep :=
  let customerName := jsLookup row cfg.nameColumn
  match jsLookup row cfg.priceColumn with
  | none => .crash "TypeError: Cannot read properties of undefined (reading 'replace')"
  | some priceRaw =>
    let priceValue := jsParseFloat (jsReplaceFirst priceRaw poundLit "")
    if strFalsy customerName || priceValue.isNone then
      .ok ⟨⟨(i : Int) + 1, jsOrElse customerName "Unknown", "error", none, none,
            "Invalid name or price"⟩, false, none⟩
    else
      let name0 := customerName.getD ""
      let v := priceValue.getD (.finite 0)
      if cfg.transformFunction = "" || jsTrim cfg.transformFunction = "" then
        .ok (remotePhase cfg i k name0 v)
      else
        match cfg.transformSem name0 with
        | .throws m =>
            .ok ⟨⟨(i : Int) + 1, name0, "error", none, none,
                  "Transform function error: " ++ m⟩, false, none⟩
        | .nonString => .crash "TypeError: customerName.toUpperCase is not a function"
        | .ok name1 => .ok (remotePhase cfg i k name1 v)

/-- The row loop: `i` is the 0-based row index, `k` the number of remote
calls made so far (the call counter advances exactly on rows that reach the
synthesis/call phase). -/
def genRows (cfg : GenConfig) : List Row → Nat → Nat → Except String (List RowTrace)
  | [], _, _ => .ok []
  | row :: rest, i, k =>
    match processRow cfg i k row with
    | .crash m => .error m
    | .ok t =>
      match genRows cfg rest (i + 1) (if t.remoteAttempted then k + 1 else k) with
      | .error m => .error m
      | .ok ts => .ok (t :: ts)

structure GenSummary where
  total : Nat
  successful : Nat
  errors : Nat
deriving Repr, DecidableEq

structure GenReport where
  results : List DiscountResult
  summary : GenSummary
deriving Repr, DecidableEq

/-- A completed run: the returned report plus the per-row trace. -/
structure RunTrace where
  report : GenReport
  rows : List RowTrace
deriving Repr, DecidableEq

/-- The returned `{results, summary}` value: `total` is `data.length`;
`successful`/`errors` equal the final counters, which the source increments
exactly when it pushes a result of the matching status. -/
def mkReport (total : Nat) (ts : List RowTrace) : GenReport :=
  { results := ts.map (·.result)
    summary :=
      { total := total
        successful := (ts.filter (fun t => t.result.status == "success")).length
        errors := (ts.filter (fun t => t.result.status == "error")).length } }

/-- `generateDiscountCodes` with its full observable trace; `Except.error`
is an uncaught exception aborting the batch. -/
def generateDiscountCodesT (cfg : GenConfig) (data : List Row) : Except String RunTrace :=
  match genRows cfg data 0 0 with
  | .error m => .error m
  | .ok ts => .ok ⟨mkReport data.length ts, ts⟩

/-- `generateDiscountCodes(graphql, data, nameColumn, priceColumn,
transformFunction)` of src/unnamed/part_001. -/
def generateDiscountCodes (cfg : GenConfig) (data : List Row) : Except String GenReport :=
  (generateDiscountCodesT cfg data).map (·.report)

/-! ## The exporters (src/app/utils/csv-export.server.ts)

`new Date().toISOString()` is abstracted as the `nowIso` parameter. -/

/-- `` `"${s}"` `` — quoting without escaping (headers, code, amount, status,
timestamp fields). -/
def quoteRaw (s : String) : String := "\"" ++ s ++ "\""

/-- `` `"${s.replace(/"/g, '""')}"` `` — quoting with internal quotes
doubled (original cell values and messages). -/
def quoteEsc (s : String) : String := "\"" ++ jsReplaceAll s "\"" "\"\"" ++ "\""

/-- `Object.keys(row)`: the column names in insertion order. -/
def rowKeys (row : Row) : List String := row.map Prod.fst

/-- The `resultMap` lookup: a `Map` keyed by `result.row - 1` filled by
`forEach` (later entries overwrite earlier ones), read at a 0-based index. -/
def lookupResult (results : List DiscountResult) (idx : Int) : Option DiscountResult :=
  results.foldl (fun acc r => if r.row - 1 = idx then some r else acc) none

/-- `result.amount || ""` rendered as a string (a falsy amount — absent or
zero — becomes the empty string). -/
def amountFieldOf (a : Option JsNum) : String :=
  match a with
  | none => ""
  | some n => if jsNumFalsy n then "" else jsNumToString n

/-- `result?.discountCode || ""`. -/
def codeField (r? : Option DiscountResult) : String :=
  match r?.bind (·.discountCode) with
  | none => ""
  | some s => s

/-- `result?.amount || ""`. -/
def amountField (r? : Option DiscountResult) : String :=
  amountFieldOf (r?.bind (·.amount))

/-- `result?.status || "not_processed"`. -/
def statusField (r? : Option DiscountResult) : String :=
  match r? with
  | none => "not_processed"
  | some r => if r.status = "" then "not_processed" else r.status

/-- `result?.message || "Not processed"`. -/
def messageField (r? : Option DiscountResult) : String :=
  match r? with
  | none => "Not processed"
  | some r => if r.message = "" then "Not processed" else r.message

/-- The five appended fields of a full-merge data row, already quoted (only
the message is escape-quoted, as in the source). -/
def newCols (nowIso : String) (r? : Option DiscountResult) : List String :=
  [quoteRaw (codeField r?), quoteRaw (amountField r?), quoteRaw (statusField r?),
   quoteEsc (messageField r?), quoteRaw nowIso]

/-- The full-merge header fields: the first row's keys plus the five fixed
columns, each wrapped in plain quotes. -/
def mergedHeaderFields (hs : List String) : List String :=
  (hs ++ ["Discount_Code", "Discount_Amount", "Generation_Status",
          "Generation_Message", "Generated_At"]).map quoteRaw

/-- `.map((row, index) => ...)` made explicit with its running index. -/
def mapIdxGo {α β : Type} (f : Nat → α → β) : Nat → List α → List β
  | _, [] => []
  | i, a :: as => f i a :: mapIdxGo f (i + 1) as

/-- One full-merge data row: the original cells (missing values read as
`""`) followed by the five result columns for this 0-based index. -/
def mergedRow (nowIso : String) (hs : List String) (results : List DiscountResult)
    (i : Nat) (row : Row) : String :=
  String.intercalate ","
    ((hs.map fun h => quoteEsc ((jsLookup row h).getD "")) ++
      newCols nowIso (lookupResult results (i : Int)))

/-- `generateCSVWithCodes(originalData, discountResults)`: throws on empty
input or empty results, otherwise the header row followed by one data row
per original row. -/
def generateCSVWithCodes (nowIso : String) (originalData : List Row)
    (discountResults : List DiscountResult) : Except String String :=
  match originalData, discountResults with
  | [], _ => .error "No data provided for CSV export"
  | _, [] => .error "No data provided for CSV export"
  | r0 :: rest, _ :: _ =>
    let hs := rowKeys r0
    .ok (String.intercalate "\n"
      (String.intercalate "," (mergedHeaderFields hs) ::
        mapIdxGo (mergedRow nowIso hs discountResults) 0 (r0 :: rest)))

/-- The summary export's fixed header fields. -/
def summaryHeaderFields : List String :=
  ["Row", "Customer_Name", "Discount_Code", "Discount_Amount", "Status",
   "Message", "Generated_At"].map quoteRaw

/-- One summary row: every value stringified and escape-quoted (`customer`
and `message` pass through `|| ""`, which is the identity on strings). -/
def summaryRowFields (nowIso : String) (r : DiscountResult) : List String :=
  [toString r.row, r.customer, r.discountCode.getD "", amountFieldOf r.amount,
   r.status, r.message, nowIso].map quoteEsc

/-- `generateSummaryCSV(discountResults)`: never throws — on an empty result
list it returns just the header row. -/
def generateSummaryCSV (nowIso : String) (discountResults : List DiscountResult) : String :=
  String.intercalate "\n"
    (String.intercalate "," summaryHeaderFields ::
      discountResults.map fun r => String.intercalate "," (summaryRowFields nowIso r))

/-- The successful-only filter: status `"success"` and a truthy (non-empty,
present) `discountCode`. -/
def successKeep (r : DiscountResult) : Bool :=
  r.status == "success" && !(strFalsy r.discountCode)

/-- JS template-literal rendering of a possibly-undefined number
(`` `${undefined}` `` is the string `"undefined"`). -/
def optNumToString (a : Option JsNum) : String :=
  match a with
  | none => "undefined"
  | some n => jsNumToString n

/-- One successful-only data row, when the index has a matching filtered
result whose status re-checks as success. -/
def successRow (hs : List String) (successfulResults : List DiscountResult)
    (i : Nat) (row : Row) : Option String :=
  match lookupResult successfulResults (i : Int) with
  | none => none
  | some r =>
    if r.status = "success" then
      some (String.intercalate ","
        ((hs.map fun h => quoteEsc ((jsLookup row h).getD "")) ++
          [quoteRaw (r.discountCode.getD "undefined"), quoteRaw (optNumToString r.amount)]))
    else none

/-- `generateSuccessfulCodesCSV(originalData, discountResults)`: throws the
empty-export error when no result passes the success filter; with successes
but an empty `originalData` it instead crashes on `Object.keys(undefined)`
(modelled as the corresponding TypeError).  Unlike the other two exports it
emits no timestamp column. -/
def generateSuccessfulCodesCSV (originalData : List Row)
    (discountResults : List DiscountResult) : Except String String :=
  let successfulResults := discountResults.filter successKeep
  match successfulResults with
  | [] => .error "No successful discount codes to export"
  | _ :: _ =>
    match originalData with
    | [] => .error "TypeError: Cannot convert undefined or null to object"
    | r0 :: rest =>
      let hs := rowKeys r0
      .ok (String.intercalate "\n"
        (String.intercalate "," ((hs ++ ["Discount_Code", "Discount_Amount"]).map quoteRaw) ::
          (mapIdxGo (successRow hs successfulResults) 0 (r0 :: rest)).filterMap id))

/-! ## Concrete inputs used by the claims -/

/-- A remote mutation that always succeeds: a parsed-JSON response with no
top-level errors, a present payload and no user errors. -/
def okOracle : Nat → RemoteOutcome := fun _ => .jsonResponse ⟨none, some ⟨some ⟨none⟩⟩⟩

/-- The spec's end-to-end configuration: name/price mapping, no transform,
always-succeeding remote, a fixed clock. -/
def endToEndCfg : GenConfig :=
  ⟨"name", "price", "", fun s => .ok s, fun _ => 1700000000000, okOracle⟩

/-- The spec's end-to-end rows, the price cell using the pound sign U+00A3
exactly as written in the spec. -/
def endToEndRows : List Row :=
  [[("name", "Alice"), ("price", "£25.00")], [("name", "Bob"), ("price", "oops")]]

/-- The same rows with the price cell double-encoded to the two-character
sequence U+00C2 U+00A3 — the only form the source's strip literal matches. -/
def endToEndRowsMoji : List Row :=
  [[("name", "Alice"), ("price", "Â£25.00")], [("name", "Bob"), ("price", "oops")]]

/-- A default configuration for crash counterexamples. -/
def plainCfg : GenConfig := ⟨"name", "price", "", fun s => .ok s, fun _ => 0, okOracle⟩

/-- A configuration whose transform snippet evaluates to a non-string. -/
def nonStringCfg : GenConfig :=
  ⟨"name", "price", "return 5", fun _ => .nonString, fun _ => 0, okOracle⟩

/-- A configuration whose remote call throws (transport failure). -/
def throwCfg : GenConfig :=
  ⟨"name", "price", "", fun s => .ok s, fun _ => 123, fun _ => .throw "network down"⟩

/-! ## Claim theorems -/

/-- Claim C2, failing run: on the spec's own end-to-end input — Alice with
price `"£25.00"` (pound sign U+00A3), Bob with `"oops"`, no transform, the
remote mocked to always succeed — the code records BOTH rows as
`"Invalid name or price"` errors and returns summary `{2, 0, 2}`, because its
strip literal is the mojibake two-character sequence U+00C2 U+00A3 and so
never matches a real pound sign; the claim (and the spec's clear intent of
stripping the currency glyph) expects Alice to succeed with amount 25 and
summary `{2, 1, 1}`, which is exactly what the run produces once the price
cell carries the double-encoded sequence the literal was meant to be. -/
theorem currency_strip_bug :
    generateDiscountCodes endToEndCfg endToEndRows =
      .ok ⟨[⟨1, "Alice", "error", none, none, "Invalid name or price"⟩,
            ⟨2, "Bob", "error", none, none, "Invalid name or price"⟩],
           ⟨2, 0, 2⟩⟩ ∧
    generateDiscountCodes endToEndCfg endToEndRowsMoji =
      .ok ⟨[⟨1, "Alice", "success", some "KICKSTARTER_ALICE_1700000000000",
             some (.finite 25), "Discount code created successfully"⟩,
            ⟨2, "Bob", "error", none, none, "Invalid name or price"⟩],
           ⟨2, 1, 1⟩⟩ :=
  ⟨by decide, by decide⟩

/-- Claim C1, counterexample: a row with no price cell makes line 38 read
`.replace` off `undefined`, an uncaught TypeError outside every try — the
batch aborts with no report at all, so not every input list of rows yields
one DiscountResult per row. -/
theorem generator_abort_cex :
    generateDiscountCodes plainCfg [[("name", "Alice")]] =
      .error "TypeError: Cannot read properties of undefined (reading 'replace')" :=
  rfl

/-- Claim C3, counterexample: a fully empty row has an absent name-column
value, so the claim demands an appended `"Invalid name or price"` result;
instead the price-cell read on line 38 crashes the batch before the name
check runs. -/
theorem invalid_row_cex :
    jsLookup ([] : Row) plainCfg.nameColumn = none ∧
    generateDiscountCodes plainCfg [([] : Row)] =
      .error "TypeError: Cannot read properties of undefined (reading 'replace')" :=
  ⟨rfl, rfl⟩

/-- Claim C4, counterexample: a transform snippet that returns the number 5
(a string-coercible non-string) does not produce a recorded row error — the
`.toUpperCase()` call on line 72, outside the transform's try/catch, throws
and aborts the whole batch. -/
theorem transform_nonstring_cex :
    generateDiscountCodes nonStringCfg [[("name", "Alice"), ("price", "25")]] =
      .error "TypeError: customerName.toUpperCase is not a function" :=
  by decide

/-- Claim C5, counterexample: a row whose remote call throws had a remote
call attempted (`remoteAttempted = true`) yet sleeps no delay
(`delayedMs = none`), because the catch on line 190 skips the sleep inside
the try. -/
theorem delay_missing_cex :
    generateDiscountCodesT throwCfg [[("name", "Alice"), ("price", "25")]] =
      .ok ⟨⟨[⟨1, "Alice", "error", none, none, "API Error: network down"⟩], ⟨1, 0, 1⟩⟩,
           [⟨⟨1, "Alice", "error", none, none, "API Error: network down"⟩, true, none⟩]⟩ :=
  rfl

/-- Claim C7, counterexample: the summary export contains no emptiness check
at all — on zero results it returns the bare header row (it is a total
function into `String`), not an EmptyExportError. -/
theorem summary_no_throw_cex :
    generateSummaryCSV "2026-01-01T00:00:00.000Z" [] =
      "\"Row\",\"Customer_Name\",\"Discount_Code\",\"Discount_Amount\",\"Status\",\"Message\",\"Generated_At\"" :=
  rfl

/-- Claim C6: for every (possibly transformed) name and clock value, the
synthesized code is the uppercased name with every character outside
`[A-Z0-9]` replaced by `_`, wrapped in the fixed campaign tag and the
millisecond timestamp, truncated to at most 50 characters; it always starts
with the campaign tag. -/
theorem discount_code_shape (name : String) (ts : Nat) :
    mkDiscountCode name ts =
      String.mk (("KICKSTARTER_" ++
        String.mk ((jsToUpper name).data.map fun c =>
          if c.isUpper || c.isDigit then c else '_') ++
        "_" ++ toString ts).data.take 50) ∧
    (mkDiscountCode name ts).length ≤ 50 ∧
    (mkDiscountCode name ts).data.take 12 = "KICKSTARTER_".data := by
  refine ⟨rfl, ?_, ?_⟩
  · show (("KICKSTARTER_" ++ cleanName name ++ "_" ++ toString ts).data.take 50).length ≤ 50
    rw [List.length_take]
    exact min_le_left _ _
  · show (("KICKSTARTER_" ++ cleanName name ++ "_" ++ toString ts).data.take 50).take 12 =
      "KICKSTARTER_".data
    rw [List.take_take]
    have h12 : ("KICKSTARTER_" ++ cleanName name ++ "_" ++ toString ts).data =
        "KICKSTARTER_".data ++ (cleanName name ++ "_" ++ toString ts).data := by
      simp [String.data_append]
    rw [show min 12 50 = 12 from rfl, h12]
    have : ("KICKSTARTER_".data).length = 12 := rfl
    rw [← this, List.take_left]

/-- The validation branch of lines 42-51: with a price cell present, a falsy
name or an unparseable price yields the fixed error result, no remote call,
no delay. -/
lemma processRow_invalid (cfg : GenConfig) (i k : Nat) (row : Row) (p : String)
    (hp : jsLookup row cfg.priceColumn = some p)
    (hcond : strFalsy (jsLookup row cfg.nameColumn) = true ∨
      jsParseFloat (jsReplaceFirst p poundLit "") = none) :
    processRow cfg i k row =
      .ok ⟨⟨(i : Int) + 1, jsOrElse (jsLookup row cfg.nameColumn) "Unknown", "error",
            none, none, "Invalid name or price"⟩, false, none⟩ := by
  unfold processRow
  rw [hp]
  have : (strFalsy (jsLookup row cfg.nameColumn) ||
      (jsParseFloat (jsReplaceFirst p poundLit "")).isNone) = true := by
    rcases hcond with h | h
    · simp [h]
    · simp [h]
  simp only [this, if_true]

/-- Appending one successfully processed row to the loop just prepends its
trace; the call counter advances only when the row attempted a remote
call. -/
lemma genRows_cons (cfg : GenConfig) (row : Row) (rest : List Row) (i k : Nat)
    (t : RowTrace) (h : processRow cfg i k row = .ok t) :
    genRows cfg (row :: rest) i k =
      Except.map (fun ts => t :: ts)
        (genRows cfg rest (i + 1) (if t.remoteAttempted then k + 1 else k)) := by
  rcases hr : genRows cfg rest (i + 1) (if t.remoteAttempted then k + 1 else k) with m | ts <;>
    (unfold genRows; rw [h]; dsimp only; rw [hr]; rfl)

/-- Claim C3 (amended): for every row that has a price cell, if the name is
empty/absent or the cleaned price does not parse, the loop appends exactly
the `"Invalid name or price"` error result, attempts no remote call (the
call counter is unchanged), and advances to the next row. -/
theorem invalid_row_result (cfg : GenConfig) (i k : Nat) (row : Row) (p : String)
    (hp : jsLookup row cfg.priceColumn = some p)
    (hcond : strFalsy (jsLookup row cfg.nameColumn) = true ∨
      jsParseFloat (jsReplaceFirst p poundLit "") = none) :
    processRow cfg i k row =
      .ok ⟨⟨(i : Int) + 1, jsOrElse (jsLookup row cfg.nameColumn) "Unknown", "error",
            none, none, "Invalid name or price"⟩, false, none⟩ ∧
    ∀ rest, genRows cfg (row :: rest) i k =
      Except.map (fun ts =>
          (⟨⟨(i : Int) + 1, jsOrElse (jsLookup row cfg.nameColumn) "Unknown", "error",
             none, none, "Invalid name or price"⟩, false, none⟩ : RowTrace) :: ts)
        (genRows cfg rest (i + 1) k) := by
  have h := processRow_invalid cfg i k row p hp hcond
  exact ⟨h, fun rest => genRows_cons cfg row rest i k _ h⟩

/-- Claim C3, witness at a concrete row with a valid price cell and an empty
name. -/
theorem invalid_row_result_witness :
    processRow plainCfg 0 0 [("name", ""), ("price", "25")] =
      .ok ⟨⟨(0 : Int) + 1, jsOrElse (jsLookup [("name", ""), ("price", "25")] plainCfg.nameColumn)
              "Unknown", "error", none, none, "Invalid name or price"⟩, false, none⟩ ∧
    ∀ rest, genRows plainCfg ([("name", ""), ("price", "25")] :: rest) 0 0 =
      Except.map (fun ts =>
          (⟨⟨(0 : Int) + 1, jsOrElse (jsLookup [("name", ""), ("price", "25")] plainCfg.nameColumn)
               "Unknown", "error", none, none, "Invalid name or price"⟩, false, none⟩ : RowTrace) :: ts)
        (genRows plainCfg rest 1 0) :=
  invalid_row_result plainCfg 0 0 [("name", ""), ("price", "25")] "25" (by decide)
    (Or.inl (by decide))

/-- Claim C9: whenever the validation branch records its error result, the
`customer` field is `"Unknown"` exactly when the name cell was empty or
absent; when only the price is invalid it carries the row's actual name. -/
theorem unknown_customer (cfg : GenConfig) (i k : Nat) (row : Row) (p : String)
    (hp : jsLookup row cfg.priceColumn = some p) :
    (strFalsy (jsLookup row cfg.nameColumn) = true →
      processRow cfg i k row =
        .ok ⟨⟨(i : Int) + 1, "Unknown", "error", none, none, "Invalid name or price"⟩,
             false, none⟩) ∧
    (∀ n, jsLookup row cfg.nameColumn = some n → n ≠ "" →
      jsParseFloat (jsReplaceFirst p poundLit "") = none →
      processRow cfg i k row =
        .ok ⟨⟨(i : Int) + 1, n, "error", none, none, "Invalid name or price"⟩,
             false, none⟩) := by
  constructor
  · intro hf
    have h := processRow_invalid cfg i k row p hp (Or.inl hf)
    rw [h]
    rcases hn : jsLookup row cfg.nameColumn with _ | s
    · simp [jsOrElse]
    · rw [hn] at hf
      simp only [strFalsy, decide_eq_true_eq] at hf
      simp [jsOrElse, hf]
  · intro n hn hne hnan
    have h := processRow_invalid cfg i k row p hp (Or.inr hnan)
    rw [h, hn]
    simp [jsOrElse, hne]

/-- Claim C9, witness: empty name gives customer `"Unknown"`; a bad price
with name `"Bob"` gives customer `"Bob"`. -/
theorem unknown_customer_witness :
    (strFalsy (jsLookup [("name", ""), ("price", "25")] plainCfg.nameColumn) = true →
      processRow plainCfg 0 0 [("name", ""), ("price", "25")] =
        .ok ⟨⟨(0 : Int) + 1, "Unknown", "error", none, none, "Invalid name or price"⟩,
             false, none⟩) ∧
    (∀ n, jsLookup [("name", ""), ("price", "25")] plainCfg.nameColumn = some n → n ≠ "" →
      jsParseFloat (jsReplaceFirst "25" poundLit "") = none →
      processRow plainCfg 0 0 [("name", ""), ("price", "25")] =
        .ok ⟨⟨(0 : Int) + 1, n, "error", none, none, "Invalid name or price"⟩,
             false, none⟩) :=
  unknown_customer plainCfg 0 0 [("name", ""), ("price", "25")] "25" (by decide)

/-- Claim C4 (amended): on a valid row with a configured transform whose
snippet throws, the loop records the error result with message
`"Transform function error: "` followed by the thrown message and the
original, untransformed name as `customer`, attempts no remote call, and
advances to the next row.  (A snippet returning a non-string value instead
crashes the batch, see the counterexample.) -/
theorem transform_throw_result (cfg : GenConfig) (i k : Nat) (row : Row) (n p m : String)
    (hn : jsLookup row cfg.nameColumn = some n) (hne : n ≠ "")
    (hp : jsLookup row cfg.priceColumn = some p)
    (hnum : jsParseFloat (jsReplaceFirst p poundLit "") ≠ none)
    (htf : ¬(cfg.transformFunction = "" ∨ jsTrim cfg.transformFunction = ""))
    (hthrow : cfg.transformSem n = .throws m) :
    processRow cfg i k row =
      .ok ⟨⟨(i : Int) + 1, n, "error", none, none, "Transform function error: " ++ m⟩,
           false, none⟩ ∧
    ∀ rest, genRows cfg (row :: rest) i k =
      Except.map (fun ts =>
          (⟨⟨(i : Int) + 1, n, "error", none, none, "Transform function error: " ++ m⟩,
            false, none⟩ : RowTrace) :: ts)
        (genRows cfg rest (i + 1) k) := by
  have hstep : processRow cfg i k row =
      .ok ⟨⟨(i : Int) + 1, n, "error", none, none, "Transform function error: " ++ m⟩,
           false, none⟩ := by
    have hcond : (strFalsy (some n) ||
        (jsParseFloat (jsReplaceFirst p poundLit "")).isNone) = false := by
      rcases hv : jsParseFloat (jsReplaceFirst p poundLit "") with _ | v
      · exact absurd hv hnum
      · simp [strFalsy, hne]
    have htf2 : (decide (cfg.transformFunction = "") ||
        decide (jsTrim cfg.transformFunction = "")) = false := by
      push_neg at htf
      simp [htf.1, htf.2]
    unfold processRow
    rw [hp, hn]
    dsimp only
    simp [hcond, htf2, hthrow]
  exact ⟨hstep, fun rest => genRows_cons cfg row rest i k _ hstep⟩

/-- A concrete configuration with a throwing transform snippet. -/
def throwingTransformCfg : GenConfig :=
  ⟨"name", "price", "throw new Error(\"boom\")", fun _ => .throws "boom", fun _ => 0, okOracle⟩

/-- Claim C4, witness at a concrete valid row whose transform throws. -/
theorem transform_throw_witness :
    processRow throwingTransformCfg 0 0 [("name", "Alice"), ("price", "25")] =
      .ok ⟨⟨(0 : Int) + 1, "Alice", "error", none, none, "Transform function error: " ++ "boom"⟩,
           false, none⟩ ∧
    ∀ rest, genRows throwingTransformCfg ([("name", "Alice"), ("price", "25")] :: rest) 0 0 =
      Except.map (fun ts =>
          (⟨⟨(0 : Int) + 1, "Alice", "error", none, none, "Transform function error: " ++ "boom"⟩,
            false, none⟩ : RowTrace) :: ts)
        (genRows throwingTransformCfg rest 1 0) :=
  transform_throw_result throwingTransformCfg 0 0 [("name", "Alice"), ("price", "25")]
    "Alice" "25" "boom" (by decide) (by decide) (by decide) (by decide) (by decide) (by decide)

/-- Whether a remote outcome normalizes to a body carrying no top-level
`errors` and a present `discountCodeBasicCreate` payload — exactly the
responses whose handling falls through to the sleep. -/
def respHasPayload (o : RemoteOutcome) : Bool :=
  match normalizeResp o with
  | .error _ => false
  | .ok d => d.errors.isNone && (d.data.bind (·.discountCodeBasicCreate)).isSome

/-- The synthesis/call phase always marks the remote call as attempted. -/
lemma remotePhase_attempted (cfg : GenConfig) (i k : Nat) (name : String) (v : JsNum) :
    (remotePhase cfg i k name v).remoteAttempted = true := by
  unfold remotePhase
  rcases normalizeResp (cfg.remoteO k) with m | d
  · rfl
  · unfold interpretData
    rcases d with ⟨_ | es, dat⟩
    · dsimp only
      rcases (Option.bind dat fun x => x.discountCodeBasicCreate) with _ | dd
      · rfl
      · rcases dd with ⟨_ | ⟨_ | ⟨e, es⟩⟩⟩ <;> rfl
    · rfl

/-- The sleep happens exactly when the normalized response carries the
mutation payload. -/
lemma remotePhase_delay (cfg : GenConfig) (i k : Nat) (name : String) (v : JsNum) :
    (remotePhase cfg i k name v).delayedMs =
      (if respHasPayload (cfg.remoteO k) = true then some 600 else none) := by
  unfold remotePhase respHasPayload
  rcases normalizeResp (cfg.remoteO k) with m | d
  · rfl
  · unfold interpretData
    rcases d with ⟨_ | es, dat⟩
    · dsimp only
      rcases (Option.bind dat fun x => x.discountCodeBasicCreate) with _ | dd
      · rfl
      · rcases dd with ⟨_ | ⟨_ | ⟨e, es⟩⟩⟩ <;> rfl
    · rfl

/-- Claim C5 (amended): in every completed loop iteration the 600 ms sleep
happens exactly when a remote call was attempted AND its response normalized
to a body containing the `discountCodeBasicCreate` payload (the success and
user-error outcomes).  Rows short-circuited before the call, rows whose call
threw, and rows whose response failed normalization, reported top-level
GraphQL errors or lacked the payload sleep nothing. -/
theorem delay_exact (cfg : GenConfig) (i k : Nat) (row : Row) (t : RowTrace)
    (h : processRow cfg i k row = .ok t) :
    t.delayedMs =
      (if t.remoteAttempted = true ∧ respHasPayload (cfg.remoteO k) = true
       then some 600 else none) := by
  unfold processRow at h
  rcases hpr : jsLookup row cfg.priceColumn with _ | priceRaw <;> rw [hpr] at h
  · exact absurd h (by simp)
  · dsimp only at h
    by_cases hc : (strFalsy (jsLookup row cfg.nameColumn) ||
        (jsParseFloat (jsReplaceFirst priceRaw poundLit "")).isNone) = true
    · rw [if_pos hc] at h
      cases h
      simp
    · rw [if_neg hc] at h
      by_cases htf : (decide (cfg.transformFunction = "") ||
          decide (jsTrim cfg.transformFunction = "")) = true
      · rw [if_pos htf] at h
        cases h
        simp [remotePhase_attempted, remotePhase_delay]
      · rw [if_neg htf] at h
        rcases hsem : cfg.transformSem ((jsLookup row cfg.nameColumn).getD "") with s | _ | m <;>
          rw [hsem] at h
        · cases h
          simp [remotePhase_attempted, remotePhase_delay]
        · exact absurd h (by simp)
        · cases h
          simp

/-- Claim C5, witness: a successful row sleeps the 600 ms delay. -/
theorem delay_exact_witness :
    (⟨⟨1, "Alice", "success", some (mkDiscountCode "Alice" 0), some (.finite 25),
       "Discount code created successfully"⟩, true, some 600⟩ : RowTrace).delayedMs =
      (if (⟨⟨1, "Alice", "success", some (mkDiscountCode "Alice" 0), some (.finite 25),
            "Discount code created successfully"⟩, true, some 600⟩ : RowTrace).remoteAttempted = true ∧
          respHasPayload (plainCfg.remoteO 0) = true
       then some 600 else none) :=
  delay_exact plainCfg 0 0 [("name", "Alice"), ("price", "25")] _ (by decide)

/-- Every result produced by the synthesis/call phase is numbered `i + 1`
and has status success or error. -/
lemma remotePhase_result (cfg : GenConfig) (i k : Nat) (name : String) (v : JsNum) :
    (remotePhase cfg i k name v).result.row = (i : Int) + 1 ∧
      ((remotePhase cfg i k name v).result.status = "success" ∨
        (remotePhase cfg i k name v).result.status = "error") := by
  unfold remotePhase
  rcases normalizeResp (cfg.remoteO k) with m | d
  · exact ⟨rfl, Or.inr rfl⟩
  · unfold interpretData
    rcases d with ⟨_ | es, dat⟩
    · dsimp only
      rcases (Option.bind dat fun x => x.discountCodeBasicCreate) with _ | dd
      · exact ⟨rfl, Or.inr rfl⟩
      · rcases dd with ⟨_ | ⟨_ | ⟨e, es⟩⟩⟩
        · exact ⟨rfl, Or.inl rfl⟩
        · exact ⟨rfl, Or.inl rfl⟩
        · exact ⟨rfl, Or.inr rfl⟩
    · exact ⟨rfl, Or.inr rfl⟩

/-- With a price cell present and a transform that never returns a
non-string, a loop iteration cannot crash, and its result is numbered
`i + 1` with status success or error. -/
lemma processRow_ok (cfg : GenConfig) (i k : Nat) (row : Row)
    (hp : jsLookup row cfg.priceColumn ≠ none)
    (ht : ∀ s, cfg.transformSem s ≠ TransformResult.nonString) :
    ∃ t : RowTrace, processRow cfg i k row = .ok t ∧ t.result.row = (i : Int) + 1 ∧
      (t.result.status = "success" ∨ t.result.status = "error") := by
  unfold processRow
  rcases hpr : jsLookup row cfg.priceColumn with _ | priceRaw
  · exact absurd hpr hp
  · dsimp only
    by_cases hc : (strFalsy (jsLookup row cfg.nameColumn) ||
        (jsParseFloat (jsReplaceFirst priceRaw poundLit "")).isNone) = true
    · rw [if_pos hc]
      exact ⟨_, rfl, rfl, Or.inr rfl⟩
    · rw [if_neg hc]
      by_cases htf : (decide (cfg.transformFunction = "") ||
          decide (jsTrim cfg.transformFunction = "")) = true
      · rw [if_pos htf]
        exact ⟨_, rfl, remotePhase_result cfg i k _ _⟩
      · rw [if_neg htf]
        rcases hsem : cfg.transformSem ((jsLookup row cfg.nameColumn).getD "") with s | _ | m
        · exact ⟨_, rfl, remotePhase_result cfg i k _ _⟩
        · exact absurd hsem (ht _)
        · exact ⟨_, rfl, rfl, Or.inr rfl⟩

/-- A list of traces whose statuses are all success-or-error splits exactly
into the two status counts. -/
lemma count_status (ts : List RowTrace)
    (h : ∀ t ∈ ts, t.result.status = "success" ∨ t.result.status = "error") :
    (ts.filter fun t => t.result.status == "success").length +
      (ts.filter fun t => t.result.status == "error").length = ts.length := by
  induction ts with
  | nil => rfl
  | cons t rest ih =>
    have hrest := ih fun u hu => h u (List.mem_cons_of_mem t hu)
    rcases h t (List.mem_cons_self t rest) with hs | hs <;>
      simp [List.filter_cons, hs, hrest] <;> omega

/-- Under the no-crash hypotheses the loop returns one trace per row, in
order, with 1-based row numbers offset by the starting index. -/
lemma genRows_total (cfg : GenConfig) (rows : List Row) (i k : Nat)
    (hp : ∀ row ∈ rows, jsLookup row cfg.priceColumn ≠ none)
    (ht : ∀ s, cfg.transformSem s ≠ TransformResult.nonString) :
    ∃ ts : List RowTrace, genRows cfg rows i k = .ok ts ∧ ts.length = rows.length ∧
      (∀ t ∈ ts, t.result.status = "success" ∨ t.result.status = "error") ∧
      (∀ j (hj : j < ts.length), (ts.get ⟨j, hj⟩).result.row = (i : Int) + j + 1) := by
  induction rows generalizing i k with
  | nil => exact ⟨[], rfl, rfl, by simp, by simp⟩
  | cons row rest ih =>
    obtain ⟨t, hrow, hid, hst⟩ :=
      processRow_ok cfg i k row (hp row (List.mem_cons_self row rest)) ht
    obtain ⟨ts, hts, hlen, hmem, hnum⟩ :=
      ih (i + 1) (if t.remoteAttempted then k + 1 else k)
        (fun r hr => hp r (List.mem_cons_of_mem row hr))
    refine ⟨t :: ts, ?_, by simp [hlen], ?_, ?_⟩
    · rw [genRows_cons cfg row rest i k t hrow, hts]
      rfl
    · intro u hu
      rcases List.mem_cons.mp hu with rfl | hu
      · exact hst
      · exact hmem u hu
    · intro j hj
      cases j with
      | zero => simpa using hid
      | succ j =>
        have hj2 : j < ts.length := by
          simpa using Nat.lt_of_succ_lt_succ hj
        have := hnum j hj2
        simp only [List.get_cons_succ, this]
        push_cast
        ring

/-- Claim C1 (amended): for every input whose rows all carry a price cell
and whose transform never returns a non-string value, the batch completes
with exactly one DiscountResult per input row, in order (the j-th result is
numbered j + 1), and the summary satisfies
`successful + errors = total = length results = length rows`. -/
theorem generator_totals (cfg : GenConfig) (data : List Row)
    (hp : ∀ row ∈ data, jsLookup row cfg.priceColumn ≠ none)
    (ht : ∀ s, cfg.transformSem s ≠ TransformResult.nonString) :
    ∃ rep : GenReport, generateDiscountCodes cfg data = .ok rep ∧
      rep.results.length = data.length ∧
      rep.summary.total = data.length ∧
      rep.summary.successful + rep.summary.errors = rep.summary.total ∧
      ∀ j (hj : j < rep.results.length), (rep.results.get ⟨j, hj⟩).row = (j : Int) + 1 := by
  obtain ⟨ts, hts, hlen, hmem, hnum⟩ := genRows_total cfg data 0 0 hp ht
  refine ⟨mkReport data.length ts, ?_, ?_, rfl, ?_, ?_⟩
  · unfold generateDiscountCodes generateDiscountCodesT
    rw [hts]
    rfl
  · simp [mkReport, hlen]
  · show (ts.filter fun t => t.result.status == "success").length +
        (ts.filter fun t => t.result.status == "error").length = data.length
    rw [count_status ts hmem, hlen]
  · intro j hj
    have hj2 : j < ts.length := by simpa [mkReport] using hj
    have hj3 : j < (ts.map (fun t => t.result)).length := by simpa using hj2
    have hmap : (mkReport data.length ts).results.get ⟨j, hj⟩ =
        (ts.map (fun t => t.result)).get ⟨j, hj3⟩ := rfl
    rw [hmap]
    simp only [List.get_eq_getElem, List.getElem_map]
    simpa [List.get_eq_getElem] using hnum j hj2

/-- Claim C1, witness: a two-row batch, one success and one error. -/
theorem generator_totals_witness :
    ∃ rep : GenReport, generateDiscountCodes throwCfg
        [[("name", "Alice"), ("price", "25")], [("name", ""), ("price", "1")]] = .ok rep ∧
      rep.results.length = 2 ∧
      rep.summary.total = 2 ∧
      rep.summary.successful + rep.summary.errors = rep.summary.total ∧
      ∀ j (hj : j < rep.results.length), (rep.results.get ⟨j, hj⟩).row = (j : Int) + 1 :=
  generator_totals throwCfg [[("name", "Alice"), ("price", "25")], [("name", ""), ("price", "1")]]
    (by decide) (fun s h => TransformResult.noConfusion h)

/-- Claim C7 (amended): the full-merge export fails with the empty-export
error exactly on empty input rows or empty results, and otherwise returns
CSV text; the successful-only export fails with its empty-export error
exactly when no result passes the success filter (status `"success"` with a
non-empty code), crashes with a TypeError when successes exist but the
original rows are empty, and otherwise returns CSV text; the summary export
never fails: it always returns the fixed header row followed by one line per
result. -/
theorem export_empty_behavior (nowIso : String) (od : List Row) (res : List DiscountResult) :
    (generateCSVWithCodes nowIso od res = .error "No data provided for CSV export" ↔
      od = [] ∨ res = []) ∧
    (od ≠ [] → res ≠ [] → ∃ s, generateCSVWithCodes nowIso od res = .ok s) ∧
    (generateSuccessfulCodesCSV od res = .error "No successful discount codes to export" ↔
      res.filter successKeep = []) ∧
    (res.filter successKeep ≠ [] → od = [] →
      generateSuccessfulCodesCSV od res =
        .error "TypeError: Cannot convert undefined or null to object") ∧
    (res.filter successKeep ≠ [] → od ≠ [] →
      ∃ s, generateSuccessfulCodesCSV od res = .ok s) ∧
    generateSummaryCSV nowIso res =
      String.intercalate "\n" (String.intercalate "," summaryHeaderFields ::
        res.map fun r => String.intercalate "," (summaryRowFields nowIso r)) := by
  refine ⟨?_, ?_, ?_, ?_, ?_, rfl⟩
  · constructor
    · intro h
      rcases od with _ | ⟨r0, rest⟩
      · exact Or.inl rfl
      · rcases res with _ | ⟨x, xs⟩
        · exact Or.inr rfl
        · exact absurd h (by simp [generateCSVWithCodes])
    · intro h
      rcases h with rfl | rfl
      · rcases res with _ | ⟨x, xs⟩ <;> rfl
      · rcases od with _ | ⟨r0, rest⟩ <;> rfl
  · intro h1 h2
    rcases od with _ | ⟨r0, rest⟩
    · exact absurd rfl h1
    · rcases res with _ | ⟨x, xs⟩
      · exact absurd rfl h2
      · exact ⟨_, rfl⟩
  · constructor
    · intro h
      rcases hf : res.filter successKeep with _ | ⟨x, xs⟩
      · rfl
      · exfalso
        unfold generateSuccessfulCodesCSV at h
        dsimp only at h
        rw [hf] at h
        rcases od with _ | ⟨r0, rest⟩ <;> simp at h
    · intro h
      unfold generateSuccessfulCodesCSV
      dsimp only
      rw [h]
  · intro h1 h2
    rcases hf : res.filter successKeep with _ | ⟨x, xs⟩
    · exact absurd hf h1
    · subst h2
      unfold generateSuccessfulCodesCSV
      dsimp only
      rw [hf]
  · intro h1 h2
    rcases hf : res.filter successKeep with _ | ⟨x, xs⟩
    · exact absurd hf h1
    · rcases od with _ | ⟨r0, rest⟩
      · exact absurd rfl h2
      · unfold generateSuccessfulCodesCSV
        dsimp only
        rw [hf]
        exact ⟨_, rfl⟩

/-- Claim C7, witness: the full-merge export rejects empty input and the
successful-only export rejects a result list with no successes. -/
theorem export_empty_witness :
    generateCSVWithCodes "T" [] [] = .error "No data provided for CSV export" ∧
    generateSuccessfulCodesCSV [[("a", "1")]] [] =
      .error "No successful discount codes to export" :=
  ⟨(export_empty_behavior "T" [] []).1.mpr (Or.inl rfl),
   (export_empty_behavior "T" [[("a", "1")]] []).2.2.1.mpr rfl⟩

lemma mapIdxGo_length {α β : Type} (f : Nat → α → β) (n : Nat) (l : List α) :
    (mapIdxGo f n l).length = l.length := by
  induction l generalizing n with
  | nil => rfl
  | cons a as ih => simp [mapIdxGo, ih]

lemma mapIdxGo_get? {α β : Type} (f : Nat → α → β) (n j : Nat) (l : List α) :
    (mapIdxGo f n l).get? j = (l.get? j).map (f (n + j)) := by
  induction l generalizing n j with
  | nil => simp [mapIdxGo]
  | cons a as ih =>
    cases j with
    | zero => simp [mapIdxGo]
    | succ j =>
      simp only [mapIdxGo, List.get?_cons_succ, ih (n + 1) j]
      have : (n + j).succ = n + (j + 1) := by omega
      rw [← this]
      dsimp only [Nat.succ_eq_add_one]
      rw [show n + 1 + j = n + j + 1 from by omega]

/-- Claim C8: on non-empty input the full-merge export returns the header
row — whose field count is the first row's key count plus five — followed by
exactly one data row per original row, in order, each built from the
original cells plus the five result columns looked up by the row's 0-based
index; an index with no matching result gets the placeholder columns
`""`, `""`, `"not_processed"`, `"Not processed"` (plus the timestamp). -/
theorem full_merge_shape (nowIso : String) (od : List Row) (res : List DiscountResult)
    (hod : od ≠ []) (hres : res ≠ []) :
    ∃ rows : List String,
      generateCSVWithCodes nowIso od res =
        .ok (String.intercalate "\n"
          (String.intercalate "," (mergedHeaderFields (rowKeys (od.headD []))) :: rows)) ∧
      (mergedHeaderFields (rowKeys (od.headD []))).length =
        (rowKeys (od.headD [])).length + 5 ∧
      rows.length = od.length ∧
      (∀ j row0, od.get? j = some row0 →
        rows.get? j = some (mergedRow nowIso (rowKeys (od.headD [])) res j row0)) ∧
      newCols nowIso none =
        ["\"\"", "\"\"", "\"not_processed\"", "\"Not processed\"", "\"" ++ nowIso ++ "\""] := by
  rcases od with _ | ⟨r0, rest⟩
  · exact absurd rfl hod
  rcases res with _ | ⟨x, xs⟩
  · exact absurd rfl hres
  refine ⟨mapIdxGo (mergedRow nowIso (rowKeys r0) (x :: xs)) 0 (r0 :: rest),
    rfl, ?_, ?_, ?_, rfl⟩
  · simp [mergedHeaderFields]
  · simp [mapIdxGo_length]
  · intro j row0 hj
    rw [mapIdxGo_get? _ 0 j, hj]
    simp

/-- Claim C8, witness at a concrete one-row, one-result input. -/
theorem full_merge_shape_witness :
    ∃ rows : List String,
      generateCSVWithCodes "T" [[("name", "Alice"), ("backing_tier", "gold")]]
          [⟨1, "Alice", "error", none, none, "Invalid name or price"⟩] =
        .ok (String.intercalate "\n"
          (String.intercalate ","
            (mergedHeaderFields (rowKeys ([[("name", "Alice"), ("backing_tier", "gold")]].headD []))) ::
            rows)) ∧
      (mergedHeaderFields (rowKeys ([[("name", "Alice"), ("backing_tier", "gold")]].headD []))).length =
        (rowKeys ([[("name", "Alice"), ("backing_tier", "gold")]].headD [])).length + 5 ∧
      rows.length = [[("name", "Alice"), ("backing_tier", "gold")]].length ∧
      (∀ j row0, [[("name", "Alice"), ("backing_tier", "gold")]].get? j = some row0 →
        rows.get? j = some (mergedRow "T"
          (rowKeys ([[("name", "Alice"), ("backing_tier", "gold")]].headD []))
          [⟨1, "Alice", "error", none, none, "Invalid name or price"⟩] j row0)) ∧
      newCols "T" none =
        ["\"\"", "\"\"", "\"not_processed\"", "\"Not processed\"", "\"" ++ "T" ++ "\""] :=
  full_merge_shape "T" [[("name", "Alice"), ("backing_tier", "gold")]]
    [⟨1, "Alice", "error", none, none, "Invalid name or price"⟩]
    (by decide) (by decide)

/-- Claim C10: a result whose amount is exactly 0 renders its
Discount_Amount field as the quoted empty string in both the full-merge and
the summary export, because the falsy amount is replaced by `""` before
serialization. -/
theorem zero_amount_blank (nowIso : String) (r : DiscountResult)
    (h : r.amount = some (JsNum.finite 0)) :
    amountField (some r) = "" ∧
    (newCols nowIso (some r)).get? 1 = some "\"\"" ∧
    (summaryRowFields nowIso r).get? 3 = some "\"\"" := by
  have ha : amountFieldOf r.amount = "" := by rw [h]; rfl
  have hb : amountField (some r) = "" := by
    unfold amountField
    simpa using ha
  refine ⟨hb, ?_, ?_⟩
  · simp [newCols, hb]
    rfl
  · simp [summaryRowFields, ha]
    rfl

/-- Claim C10, witness at a concrete zero-amount result. -/
theorem zero_amount_blank_witness :
    amountField (some (⟨1, "A", "success", some "C", some (JsNum.finite 0), "m"⟩ : DiscountResult)) = "" ∧
    (newCols "T" (some (⟨1, "A", "success", some "C", some (JsNum.finite 0), "m"⟩ : DiscountResult))).get? 1 =
      some "\"\"" ∧
    (summaryRowFields "T" (⟨1, "A", "success", some "C", some (JsNum.finite 0), "m"⟩ : DiscountResult)).get? 3 =
      some "\"\"" :=
  zero_amount_blank "T" ⟨1, "A", "success", some "C", some (JsNum.finite 0), "m"⟩ rfl

end DiscountGen
